import Mathlib

/-!
Verification of the engine-resolution core of `unified_planning/engines/factory.py`.

The Python source is shallowly embedded: the `Factory` object becomes a record of
its mutable fields, Python `dict`s become insertion-ordered association lists,
dynamic module loading becomes an explicit `Loader` environment returning
`Option`, and every exception becomes a constructor of `UPError`.  Operations
that mutate the factory return `Except (UPError × Factory) Factory`; on the
error side they carry the factory state at the moment the exception was raised,
so that "no partial mutation" facts are expressible.
-/

namespace UPFactory

/-- Modelled from the spec (§3 ServiceKind): the operation modes of
`unified_planning.engines.engine.OperationMode` (the enum module itself is not
part of the sources under scrutiny; the seven members are exactly the ones
`factory.py` dispatches on). -/
inductive OperationMode where
  | oneshot_planner
  | anytime_planner
  | plan_validator
  | compiler
  | simulator
  | replanner
  | portfolio_selector
deriving DecidableEq, Repr

/-- Modelled from the spec (§3 Guarantee): the optimality-guarantee enum of the
oneshot-planner mixin; `factory.py` references `SOLVED_OPTIMALLY` explicitly. -/
inductive OptimalityGuarantee where
  | SATISFICING
  | SOLVED_OPTIMALLY
deriving DecidableEq, Repr

/-- Modelled from the spec (§3 Guarantee): the anytime-guarantee enum of the
anytime-planner mixin; `factory.py` references both members. -/
inductive AnytimeGuarantee where
  | INCREASING_QUALITY
  | OPTIMAL_PLANS
deriving DecidableEq, Repr

/-- Modelled from the spec (§3 Guarantee): compilation kinds of the compiler
mixin (a closed enumeration; the members listed here are the ones named in the
repository's docstrings and default compiler table). -/
inductive CompilationKind where
  | GROUNDING
  | CONDITIONAL_EFFECTS_REMOVING
  | DISJUNCTIVE_CONDITIONS_REMOVING
  | NEGATIVE_CONDITIONS_REMOVING
  | QUANTIFIERS_REMOVING
deriving DecidableEq, Repr

/-- Modelled from the spec (§3 Guarantee): plan kinds of the plan-validator
mixin (a closed enumeration; only treated abstractly by the resolver). -/
inductive PlanKind where
  | SEQUENTIAL_PLAN
  | TIME_TRIGGERED_PLAN
deriving DecidableEq, Repr

/-- Modelled from the spec (§3 CapabilitySet): a `ProblemKind` is an unordered
collection of named feature flags; represented as the list of flags in their
iteration order (the order only matters for diagnostic-table columns). -/
structure ProblemKind where
  features : List String
deriving DecidableEq, Repr

/-- Modelled from the spec (§3 BackendDescriptor, §4.1): an engine class as the
resolver sees it — a bundle of declared service kinds and guarantee/capability
predicates.  The predicates are represented extensionally as the declared
sets, which is exactly the information the class-level query methods
(`is_<mode>`, `satisfies`, `ensures`, `supports_compilation`, `supports_plan`,
`supports`) expose to `factory.py`. -/
structure Engine where
  supportedModes : List OperationMode
  satisfiesList : List OptimalityGuarantee
  ensuresList : List AnytimeGuarantee
  compilationList : List CompilationKind
  planList : List PlanKind
  supportedFeatures : List String
deriving DecidableEq, Repr

/-- The `getattr(EngineClass, "is_" + operation_mode.value)()` query. -/
def Engine.isOperationMode (e : Engine) (m : OperationMode) : Bool :=
  e.supportedModes.contains m

/-- `EngineClass.satisfies(optimality_guarantee)`. -/
def Engine.satisfies (e : Engine) (g : OptimalityGuarantee) : Bool :=
  e.satisfiesList.contains g

/-- `EngineClass.ensures(anytime_guarantee)`. -/
def Engine.ensures (e : Engine) (g : AnytimeGuarantee) : Bool :=
  e.ensuresList.contains g

/-- `EngineClass.supports_compilation(compilation_kind)`. -/
def Engine.supportsCompilation (e : Engine) (k : CompilationKind) : Bool :=
  e.compilationList.contains k

/-- `EngineClass.supports_plan(plan_kind)`. -/
def Engine.supportsPlan (e : Engine) (k : PlanKind) : Bool :=
  e.planList.contains k

/-- Modelled from the spec (§4.1): `CapabilitySet.supports(required)` is true
iff every feature flag in `required` is present in the declared set; this is
`EngineClass.supports(problem_kind)`. -/
def Engine.supports (e : Engine) (pk : ProblemKind) : Bool :=
  pk.features.all (fun ft => e.supportedFeatures.contains ft)

/-- Modelled from the spec (§3 MetaEngineDescriptor, §4.3): a meta-engine class
exposes a compatibility predicate (`is_compatible_engine`) and a composition
function (`MetaEngineClass[engine]`) producing a derived engine class. -/
structure MetaEngine where
  isCompatibleEngine : Engine → Bool
  compose : Engine → Engine

/-- The exceptions `factory.py` can raise, plus the structured content of the
`UPNoSuitableEngineAvailableException` message (built by the tail of
`_get_engine_class`, lines 452-464): either the diagnostic table (header and
rows, exactly the strings the code would feed to `format_table`) or one of the
degraded one-line messages. -/
inductive NoSuitableMsg where
  | table : List String → List (List String) → NoSuitableMsg
  | noCompilation : CompilationKind → NoSuitableMsg
  | noPlan : PlanKind → NoSuitableMsg
  | noOptimality : OptimalityGuarantee → NoSuitableMsg
  | noAnytime : AnytimeGuarantee → NoSuitableMsg
  | noModeEngine : OperationMode → NoSuitableMsg
deriving DecidableEq, Repr

inductive UPError where
  | noRequestedEngine
  | noSuitable : NoSuitableMsg → UPError
  | keyError : String → UPError
  | assertionError
  | importError : String → String → UPError
  | noOptionError : String → String → UPError
  | usageError : String → UPError
deriving DecidableEq, Repr

/-- Decidable equality of `Except` results, so that concrete runs of the
embedded operations can be checked by evaluation. -/
instance exceptDecEq {ε : Type u} {α : Type v} [DecidableEq ε] [DecidableEq α] :
    DecidableEq (Except ε α)
  | .error a, .error b =>
    if h : a = b then .isTrue (by rw [h])
    else .isFalse (by intro hc; cases hc; exact h rfl)
  | .error _, .ok _ => .isFalse (by intro hc; cases hc)
  | .ok _, .error _ => .isFalse (by intro hc; cases hc)
  | .ok a, .ok b =>
    if h : a = b then .isTrue (by rw [h])
    else .isFalse (by intro hc; cases hc; exact h rfl)

/-- Lookup in a Python `dict` modelled as an insertion-ordered association
list: `d[k]` when present. -/
def lookupDict (d : List (String × α)) (k : String) : Option α :=
  (d.find? (fun p => p.1 == k)).map (fun p => p.2)

/-- Assignment `d[k] = v` in a Python `dict`: overwrites in place when the key
exists (keeping its position), otherwise appends at the end. -/
def dictInsert (d : List (String × α)) (k : String) (v : α) : List (String × α) :=
  if (d.find? (fun p => p.1 == k)).isSome then
    d.map (fun p => if p.1 == k then (k, v) else p)
  else
    d ++ [(k, v)]

/-- The mutable state of a `Factory` instance: `_engines`, `_engines_info`,
`_meta_engines`, `_meta_engines_info`, `_preference_list`
(`_credit_disclaimer_printed` is omitted: per the spec §4.4 the credits side
effect never affects resolution outcomes). -/
structure Factory where
  engines : List (String × Engine)
  enginesInfo : List (String × String × String)
  metaEngines : List (String × MetaEngine)
  metaEnginesInfo : List (String × String × String)
  preferenceList : List String

/-- `importlib.import_module` followed by `getattr`, as an environment: `none`
means the reference cannot be loaded (an `ImportError`/`AttributeError`). -/
structure Loader where
  engine : String → String → Option Engine
  meta : String → String → Option MetaEngine

/-- The name `f"{me_name}[{name}]"` of a meta-composed engine. -/
def metaName (m b : String) : String := m ++ "[" ++ b ++ "]"

/-- The per-mode body of the scan loop of `_get_engine_class` (lines 394-443):
the runtime `assert`s that the guarantee dimensions foreign to the requested
operation mode are absent, then the guarantee-filter decision.  Returns
`.ok true` when the loop does `continue` (guarantee rejected), `.ok false`
when the scan proceeds to the capability check. -/
def modeCheck (mode : OperationMode) (e : Engine)
    (og : Option OptimalityGuarantee) (ck : Option CompilationKind)
    (plk : Option PlanKind) (ag : Option AnytimeGuarantee) : Except UPError Bool :=
  match mode with
  | .oneshot_planner | .replanner | .portfolio_selector =>
    if ag.isSome || ck.isSome || plk.isSome then .error .assertionError
    else .ok (match og with
      | some g => ! e.satisfies g
      | none => false)
  | .plan_validator =>
    if og.isSome || ag.isSome || ck.isSome then .error .assertionError
    else .ok (match plk with
      | some k => ! e.supportsPlan k
      | none => false)
  | .compiler =>
    if og.isSome || ag.isSome || plk.isSome then .error .assertionError
    else .ok (match ck with
      | some k => ! e.supportsCompilation k
      | none => false)
  | .anytime_planner =>
    if og.isSome || ck.isSome || plk.isSome then .error .assertionError
    else .ok (match ag with
      | some g => ! e.ensures g
      | none => false)
  | .simulator =>
    if og.isSome || ag.isSome || ck.isSome || plk.isSome then .error .assertionError
    else .ok false

/-- The diagnostic row `[name] + [str(EngineClass.supports(ProblemKind({f})))
for f in problem_features]` (lines 447-450). -/
def featureRow (n : String) (e : Engine) (pk : ProblemKind) : List String :=
  n :: pk.features.map (fun ft => if e.supports ⟨[ft]⟩ then "True" else "False")

/-- The message logic at the tail of `_get_engine_class` (lines 452-464). -/
def noSuitableMsg (mode : OperationMode) (pk : ProblemKind)
    (og : Option OptimalityGuarantee) (ck : Option CompilationKind)
    (plk : Option PlanKind) (ag : Option AnytimeGuarantee)
    (rows : List (List String)) : NoSuitableMsg :=
  if rows.length > 0 then .table ("Engine" :: pk.features) rows
  else match ck with
  | some k => .noCompilation k
  | none => match plk with
    | some k => .noPlan k
    | none => match og with
      | some g => .noOptimality g
      | none => match ag with
        | some g => .noAnytime g
        | none => .noModeEngine mode

/-- The `for name in self._preference_list` loop of `_get_engine_class`
(lines 391-451), with the accumulated `planners_features` rows made explicit.
`self._engines[name]` on an absent key raises a Python `KeyError`. -/
def scanPreferences (f : Factory) (mode : OperationMode) (pk : ProblemKind)
    (og : Option OptimalityGuarantee) (ck : Option CompilationKind)
    (plk : Option PlanKind) (ag : Option AnytimeGuarantee) :
    List String → List (List String) → Except UPError Engine
  | [], acc => .error (.noSuitable (noSuitableMsg mode pk og ck plk ag acc))
  | n :: rest, acc =>
    match lookupDict f.engines n with
    | none => .error (.keyError n)
    | some e =>
      if e.isOperationMode mode then
        match modeCheck mode e og ck plk ag with
        | .error err => .error err
        | .ok true => scanPreferences f mode pk og ck plk ag rest acc
        | .ok false =>
          if e.supports pk then .ok e
          else scanPreferences f mode pk og ck plk ag rest (acc ++ [featureRow n e pk])
      else scanPreferences f mode pk og ck plk ag rest acc

/-- `Factory._get_engine_class` (lines 372-465).  With an explicit `name` the
registry is consulted directly (no capability or guarantee checks); otherwise
the eager `assert optimality_guarantee is None or compilation_kind is None`
runs and the preference list is scanned. -/
def getEngineClass (f : Factory) (mode : OperationMode) (name : Option String)
    (pk : ProblemKind) (og : Option OptimalityGuarantee) (ck : Option CompilationKind)
    (plk : Option PlanKind) (ag : Option AnytimeGuarantee) : Except UPError Engine :=
  match name with
  | some n =>
    match lookupDict f.engines n with
    | some e => .ok e
    | none => .error .noRequestedEngine
  | none =>
    if og.isSome && ck.isSome then .error .assertionError
    else scanPreferences f mode pk og ck plk ag f.preferenceList []

/-- `Factory.engine` (lines 215-222): `return self._engines[name]`, so a
missing name raises a Python `KeyError`. -/
def engineLookup (f : Factory) (name : String) : Except UPError Engine :=
  match lookupDict f.engines name with
  | some e => .ok e
  | none => .error (.keyError name)

/-- The `preference_list` property setter (lines 229-241): replaces the list
wholesale, with no validation against the registry. -/
def setPreferenceList (f : Factory) (l : List String) : Factory :=
  { f with preferenceList := l }

/-- `Factory._add_engine` (lines 348-352): import the module and fetch the
class (one failure point, before any mutation), then record the class in
`_engines` and the instruction in `_engines_info`. -/
def addEngineAux (ld : Loader) (f : Factory) (name moduleName className : String) :
    Except (UPError × Factory) Factory :=
  match ld.engine moduleName className with
  | none => .error (.importError moduleName className, f)
  | some impl => .ok { f with
      engines := dictInsert f.engines name impl,
      enginesInfo := f.enginesInfo ++ [(name, moduleName, className)] }

/-- `Factory.add_engine` (lines 243-258): `_add_engine`, append to the
preference list, then compose every registered meta-engine against the new
engine, appending each composed name. -/
def addEngine (ld : Loader) (f : Factory) (name moduleName className : String) :
    Except (UPError × Factory) Factory :=
  match addEngineAux ld f name moduleName className with
  | .error e => .error e
  | .ok f1 =>
    let f2 := { f1 with preferenceList := f1.preferenceList ++ [name] }
    match lookupDict f2.engines name with
    | none => .error (.keyError name, f2)
    | some engine =>
      .ok (f2.metaEngines.foldl (fun g me =>
        if me.2.isCompatibleEngine engine then
          { g with
            engines := dictInsert g.engines (metaName me.1 name) (me.2.compose engine),
            preferenceList := g.preferenceList ++ [metaName me.1 name] }
        else g) f2)

/-- The compatibility-guarded registration
`if EngineImpl.is_compatible_engine(engine): self._engines[...] = EngineImpl[engine]`
closing `_add_engine_meta_engine` (lines 369-370). -/
def composeInto (f : Factory) (name : String) (impl : MetaEngine)
    (engineName : String) (engine : Engine) : Factory :=
  if impl.isCompatibleEngine engine then
    { f with engines := dictInsert f.engines (metaName name engineName) (impl.compose engine) }
  else f

/-- `Factory._add_meta_engine` (lines 354-370): reuse the already-registered
meta-engine class when present (no load, no info append), otherwise load it
(one failure point) and record it; in either case compose it against the given
engine when compatible. -/
def addMetaEngineAux (ld : Loader) (f : Factory)
    (name moduleName className engineName : String) (engine : Engine) :
    Except (UPError × Factory) Factory :=
  match lookupDict f.metaEngines name with
  | some impl => .ok (composeInto f name impl engineName engine)
  | none =>
    match ld.meta moduleName className with
    | none => .error (.importError moduleName className, f)
    | some impl =>
      let f1 := { f with
        metaEngines := dictInsert f.metaEngines name impl,
        metaEnginesInfo := f.metaEnginesInfo ++ [(name, moduleName, className)] }
      .ok (composeInto f1 name impl engineName engine)

/-- `Factory.add_meta_engine` (lines 260-273): snapshot `dict(self._engines)`,
then for each snapshot entry run `_add_meta_engine` and, when the composed name
is now registered, append it to the preference list. -/
def addMetaEngine (ld : Loader) (f : Factory) (name moduleName className : String) :
    Except (UPError × Factory) Factory :=
  f.engines.foldl (fun acc p =>
    match acc with
    | .error e => .error e
    | .ok g =>
      match addMetaEngineAux ld g name moduleName className p.1 p.2 with
      | .error e => .error e
      | .ok g1 =>
        if (lookupDict g1.engines (metaName name p.1)).isSome then
          .ok { g1 with preferenceList := g1.preferenceList ++ [metaName name p.1] }
        else .ok g1)
    (Except.ok f)

/-- One iteration of the `for name, module_name, class_name in engines_info`
replay loop of `__setstate__` (lines 199-200), threading the raised exception
past the remaining iterations. -/
def setstateEngineStep (ld : Loader) (acc : Except (UPError × Factory) Factory)
    (i : String × String × String) : Except (UPError × Factory) Factory :=
  match acc with
  | .error e => .error e
  | .ok g => addEngineAux ld g i.1 i.2.1 i.2.2

/-- One iteration of the inner `for engine_name, engine in engines.items()`
replay loop of `__setstate__` (lines 205-208). -/
def setstateMetaStep (ld : Loader) (mi : String × String × String)
    (acc : Except (UPError × Factory) Factory) (p : String × Engine) :
    Except (UPError × Factory) Factory :=
  match acc with
  | .error e => .error e
  | .ok g => addMetaEngineAux ld g mi.1 mi.2.1 mi.2.2 p.1 p.2

/-- `Factory.__getstate__` followed by `__setstate__` (lines 189-208): the
pickled state drops `_engines`; reconstruction replays the recorded
`_engines_info` instructions through `_add_engine` (after resetting the list,
which `_add_engine` re-fills), snapshots the resulting engines dict, resets
`_meta_engines_info`, and replays each recorded meta-engine instruction through
`_add_meta_engine` against every snapshot entry.  `_meta_engines` itself
travels with the state, so the replayed names are found there and the loader
is not consulted for them. -/
def reconstruct (ld : Loader) (f : Factory) : Except (UPError × Factory) Factory :=
  match f.enginesInfo.foldl (setstateEngineStep ld)
      (Except.ok { f with engines := [], enginesInfo := [] }) with
  | .error e => .error e
  | .ok s1 =>
    s1.metaEnginesInfo.foldl
      (fun acc mi => s1.engines.foldl (setstateMetaStep ld mi) acc)
      (Except.ok { s1 with metaEnginesInfo := [] })

/-- One `[engine <name>]` configuration section (`configure_from_file`,
lines 303-320): `config.get` raises a `NoOptionError` when the key is missing
(so the subsequent `assert` never fires), then `add_engine` runs. -/
structure ConfigSection where
  name : String
  moduleName : Option String
  className : Option String

/-- The `[global]` section: `engine_preference_list` when the key is present. -/
structure GlobalSection where
  enginePreferenceList : Option String

/-- A parsed configuration file: the `[engine ...]` sections, the
`[meta-engine ...]` sections, and the optional `[global]` section. -/
structure Config where
  engineSections : List ConfigSection
  metaEngineSections : List ConfigSection
  globalSection : Option GlobalSection

def applyEngineSection (ld : Loader) (f : Factory) (s : ConfigSection) :
    Except (UPError × Factory) Factory :=
  match s.moduleName with
  | none => .error (.noOptionError s.name "module_name", f)
  | some m =>
    match s.className with
    | none => .error (.noOptionError s.name "class_name", f)
    | some c => addEngine ld f s.name m c

def applyMetaEngineSection (ld : Loader) (f : Factory) (s : ConfigSection) :
    Except (UPError × Factory) Factory :=
  match s.moduleName with
  | none => .error (.noOptionError s.name "module_name", f)
  | some m =>
    match s.className with
    | none => .error (.noOptionError s.name "class_name", f)
    | some c => addMetaEngine ld f s.name m c

/-- `[x.strip() for x in pref_list.split() if len(x.strip()) > 0]`
(line 345): Python's argumentless `str.split` — split on whitespace runs,
dropping empty tokens (stripping is then the identity).  Written as a
structural recursion over the characters so it evaluates in the kernel. -/
def splitWsAux : List Char → List Char → List String
  | [], cur => if cur.isEmpty then [] else [String.mk cur.reverse]
  | c :: rest, cur =>
    if c.isWhitespace then
      if cur.isEmpty then splitWsAux rest []
      else String.mk cur.reverse :: splitWsAux rest []
    else splitWsAux rest (c :: cur)

def splitWhitespaceTokens (s : String) : List String :=
  splitWsAux s.toList []

/-- `Factory.configure_from_file` (lines 275-346) after configparser parsing:
process every `[engine ...]` section, then every `[meta-engine ...]` section,
then — when a `[global]` section exists — read `engine_preference_list`
(missing key raises) and replace the whole preference list with the listed
names that are currently registered, in the listed order. -/
def configureFromFile (ld : Loader) (f : Factory) (cfg : Config) :
    Except (UPError × Factory) Factory :=
  match cfg.engineSections.foldl (fun acc s =>
      match acc with
      | .error e => .error e
      | .ok g => applyEngineSection ld g s) (Except.ok f) with
  | .error e => .error e
  | .ok f1 =>
    match cfg.metaEngineSections.foldl (fun acc s =>
        match acc with
        | .error e => .error e
        | .ok g => applyMetaEngineSection ld g s) (Except.ok f1) with
    | .error e => .error e
    | .ok f2 =>
      match cfg.globalSection with
      | none => .ok f2
      | some gs =>
        match gs.enginePreferenceList with
        | none => .error (.noOptionError "global" "engine_preference_list", f2)
        | some s =>
          let newPrefs := (splitWhitespaceTokens s).filter
            (fun e => (lookupDict f2.engines e).isSome)
          .ok { f2 with preferenceList := newPrefs }

/-- The error message of the replanner guard in `_get_engine` (line 595). -/
def replannerOptimalityMsg : String :=
  "The problem has no quality metrics but the engine is required to be optimal!"

/-- The `OperationMode.REPLANNER` slice of `Factory._get_engine`
(lines 572-597, single-engine branch): resolve the class through
`_get_engine_class`, then raise `UPUsageError` when the problem's kind has
quality metrics while `optimality_guarantee == SOLVED_OPTIMALLY`.
`problem.kind.has_quality_metrics()` is passed in as a Boolean: the problem
data model is outside this core (spec §1).  Credits emission is omitted (spec
§4.4: it never affects the outcome). -/
def getEngineReplanner (f : Factory) (name : Option String) (pk : ProblemKind)
    (hasQualityMetrics : Bool) (og : Option OptimalityGuarantee) :
    Except UPError Engine :=
  match getEngineClass f .replanner name pk og none none none with
  | .error e => .error e
  | .ok engineClass =>
    if hasQualityMetrics && og == some OptimalityGuarantee.SOLVED_OPTIMALLY then
      .error (.usageError replannerOptimalityMsg)
    else .ok engineClass

/-! ### Statement-side derived predicates -/

/-- The guarantee filter of the scan loop, phrased positively: `true` when the
request's guarantee (if any) for the given mode is accepted by the engine, so
the loop does not `continue` past it. -/
def guaranteeFilter (mode : OperationMode) (e : Engine)
    (og : Option OptimalityGuarantee) (ck : Option CompilationKind)
    (plk : Option PlanKind) (ag : Option AnytimeGuarantee) : Bool :=
  match mode with
  | .oneshot_planner | .replanner | .portfolio_selector =>
    match og with
    | some g => e.satisfies g
    | none => true
  | .plan_validator =>
    match plk with
    | some k => e.supportsPlan k
    | none => true
  | .compiler =>
    match ck with
    | some k => e.supportsCompilation k
    | none => true
  | .anytime_planner =>
    match ag with
    | some g => e.ensures g
    | none => true
  | .simulator => true

/-- The caller contract of §4.4: only the guarantee dimension belonging to the
requested operation mode may be non-null. -/
def guaranteesMatch (mode : OperationMode)
    (og : Option OptimalityGuarantee) (ck : Option CompilationKind)
    (plk : Option PlanKind) (ag : Option AnytimeGuarantee) : Bool :=
  match mode with
  | .oneshot_planner | .replanner | .portfolio_selector =>
    ag.isNone && ck.isNone && plk.isNone
  | .plan_validator => og.isNone && ag.isNone && ck.isNone
  | .compiler => og.isNone && ag.isNone && plk.isNone
  | .anytime_planner => og.isNone && ck.isNone && plk.isNone
  | .simulator => og.isNone && ag.isNone && ck.isNone && plk.isNone

/-- A preference-list name passes all checks of the scan loop: it is
registered, its engine declares the requested mode, its guarantee predicate
accepts the requested guarantee, and its capabilities support the requested
problem kind. -/
def passesChecks (f : Factory) (mode : OperationMode) (pk : ProblemKind)
    (og : Option OptimalityGuarantee) (ck : Option CompilationKind)
    (plk : Option PlanKind) (ag : Option AnytimeGuarantee) (n : String) : Bool :=
  match lookupDict f.engines n with
  | none => false
  | some e => e.isOperationMode mode && guaranteeFilter mode e og ck plk ag && e.supports pk

/-- The diagnostic rows a full failed scan produces: one row per name whose
engine declares the mode and passes the guarantee filter but fails the
capability check. -/
def rowsFor (f : Factory) (mode : OperationMode) (pk : ProblemKind)
    (og : Option OptimalityGuarantee) (ck : Option CompilationKind)
    (plk : Option PlanKind) (ag : Option AnytimeGuarantee)
    (names : List String) : List (List String) :=
  names.filterMap (fun n =>
    match lookupDict f.engines n with
    | none => none
    | some e =>
      if e.isOperationMode mode && guaranteeFilter mode e og ck plk ag && ! e.supports pk
      then some (featureRow n e pk) else none)

/-- The engines dict produced by replaying a recorded instruction list from an
empty dict (skipping unloadable entries; under the hypotheses of the
reconstruction theorem every entry loads). -/
def replayEngines (ld : Loader) (infos : List (String × String × String)) :
    List (String × Engine) :=
  infos.foldl (fun d i =>
    match ld.engine i.2.1 i.2.2 with
    | some impl => dictInsert d i.1 impl
    | none => d) []

/-- The engines dict produced by the meta-replay phase of `__setstate__`:
starting from `d0`, every recorded meta-engine instruction is composed against
every snapshot entry it is compatible with, using the meta-engine classes
found in the (state-carried) dict `M`. -/
def composedEngines (M : List (String × MetaEngine)) (snapshot : List (String × Engine))
    (minfos : List (String × String × String)) (d0 : List (String × Engine)) :
    List (String × Engine) :=
  minfos.foldl (fun d mi =>
    match lookupDict M mi.1 with
    | some impl =>
      snapshot.foldl (fun d2 p =>
        if impl.isCompatibleEngine p.2 then
          dictInsert d2 (metaName mi.1 p.1) (impl.compose p.2)
        else d2) d
    | none => d) d0

/-- Fallback engine used only to state lookups totally. -/
def defaultEngine : Engine := ⟨[], [], [], [], [], []⟩

/-! ### Concrete fixtures for witnesses and counterexamples -/

/-- The factory state with nothing registered: the result of `__init__` when
none of the optional default engines is importable and no configuration file
is found. -/
def emptyFactory : Factory := ⟨[], [], [], [], []⟩

/-- A oneshot planner supporting feature `f1` only. -/
def engA : Engine := ⟨[.oneshot_planner], [.SATISFICING], [], [], [], ["f1"]⟩

/-- A oneshot planner supporting features `f1` and `f2`. -/
def engB : Engine := ⟨[.oneshot_planner], [.SATISFICING], [], [], [], ["f1", "f2"]⟩

/-- A oneshot planner declaring no optimality guarantees at all. -/
def engNoGuarantee : Engine := ⟨[.oneshot_planner], [], [], [], [], ["f1"]⟩

/-- A two-planner factory in preference order `a`, `b` (the end-to-end scenario
of spec §8). -/
def factoryAB : Factory :=
  ⟨[("a", engA), ("b", engB)], [("a", "ma", "ca"), ("b", "mb", "cb")], [], [],
   ["a", "b"]⟩

/-- Factory whose only candidate declares the mode but rejects every
optimality guarantee. -/
def factoryNoGuarantee : Factory :=
  ⟨[("a", engNoGuarantee)], [("a", "ma", "ca")], [], [], ["a"]⟩

/-- A factory whose preference list was set (through the `preference_list`
setter) to contain a name absent from the registry. -/
def factoryStale : Factory := setPreferenceList emptyFactory ["ghost"]

/-- Loader for the reconstruction counterexample: one engine class and two
meta-engine classes, each at a fixed module/class reference. -/
def ldNested : Loader :=
  { engine := fun m c => if m == "mb" && c == "cb" then some engA else none,
    meta := fun m c =>
      if m == "mm1" && c == "cm1" then some ⟨fun _ => true, fun e => e⟩
      else if m == "mm2" && c == "cm2" then some ⟨fun _ => true, fun e => e⟩
      else none }

/-- A factory reached from the empty state by `add_engine("base", ...)`,
`add_meta_engine("m1", ...)`, `add_meta_engine("m2", ...)`: the second
meta-engine also composes against the composed engine `m1[base]`, producing
the nested name `m2[m1[base]]`. -/
def factoryNested : Factory :=
  match addEngine ldNested emptyFactory "base" "mb" "cb" with
  | .error _ => emptyFactory
  | .ok f1 =>
    match addMetaEngine ldNested f1 "m1" "mm1" "cm1" with
    | .error _ => f1
    | .ok f2 =>
      match addMetaEngine ldNested f2 "m2" "mm2" "cm2" with
      | .error _ => f2
      | .ok f3 => f3

/-- A loader on which every reference fails to load. -/
def failLoader : Loader := ⟨fun _ _ => none, fun _ _ => none⟩

/-- A replanner declaring the `SOLVED_OPTIMALLY` guarantee. -/
def engR : Engine := ⟨[.replanner], [.SOLVED_OPTIMALLY], [], [], [], []⟩

/-- A one-replanner factory. -/
def factoryR : Factory := ⟨[("r", engR)], [("r", "mr", "cr")], [], [], ["r"]⟩

/-- Loader for the configuration witness: one registrable engine. -/
def ldConfig : Loader :=
  ⟨fun m c => if m == "ma" && c == "ca" then some engA else none, fun _ _ => none⟩

/-- A configuration with one engine section and a `[global]` preference list
naming one unregistered and one registered engine. -/
def cfgGlobal : Config :=
  ⟨[⟨"a", some "ma", some "ca"⟩], [], some ⟨some "ghost a"⟩⟩

/-- The factory produced by configuring the empty factory from `cfgGlobal`. -/
def factoryConfigured : Factory :=
  match configureFromFile ldConfig emptyFactory cfgGlobal with
  | .ok g => g
  | .error _ => emptyFactory

/-! ### Lemmas about the resolver scan -/

lemma guaranteesMatch_eager (mode : OperationMode)
    (og : Option OptimalityGuarantee) (ck : Option CompilationKind)
    (plk : Option PlanKind) (ag : Option AnytimeGuarantee)
    (hg : guaranteesMatch mode og ck plk ag = true) :
    (og.isSome && ck.isSome) = false := by
  cases mode <;>
    simp only [guaranteesMatch, Bool.and_eq_true, Option.isNone_iff_eq_none] at hg <;>
    obtain ⟨h1, h2⟩ := hg <;> simp_all

lemma modeCheck_of_match (mode : OperationMode) (e : Engine)
    (og : Option OptimalityGuarantee) (ck : Option CompilationKind)
    (plk : Option PlanKind) (ag : Option AnytimeGuarantee)
    (hg : guaranteesMatch mode og ck plk ag = true) :
    modeCheck mode e og ck plk ag = .ok (! guaranteeFilter mode e og ck plk ag) := by
  cases mode <;> cases og <;> cases ck <;> cases plk <;> cases ag <;>
    simp_all [guaranteesMatch, modeCheck, guaranteeFilter]

lemma modeCheck_of_mismatch (mode : OperationMode) (e : Engine)
    (og : Option OptimalityGuarantee) (ck : Option CompilationKind)
    (plk : Option PlanKind) (ag : Option AnytimeGuarantee)
    (hg : guaranteesMatch mode og ck plk ag = false) :
    modeCheck mode e og ck plk ag = .error .assertionError := by
  cases mode <;> cases og <;> cases ck <;> cases plk <;> cases ag <;>
    simp_all [guaranteesMatch, modeCheck]

theorem scanPreferences_spec (f : Factory) (mode : OperationMode) (pk : ProblemKind)
    (og : Option OptimalityGuarantee) (ck : Option CompilationKind)
    (plk : Option PlanKind) (ag : Option AnytimeGuarantee)
    (hg : guaranteesMatch mode og ck plk ag = true) :
    ∀ (names : List String) (acc : List (List String)),
      (∀ n ∈ names, (lookupDict f.engines n).isSome) →
      scanPreferences f mode pk og ck plk ag names acc =
        match names.find? (passesChecks f mode pk og ck plk ag) with
        | some n => .ok ((lookupDict f.engines n).getD defaultEngine)
        | none => .error (.noSuitable (noSuitableMsg mode pk og ck plk ag
            (acc ++ rowsFor f mode pk og ck plk ag names)))
  | [], acc, _ => by
    simp [scanPreferences, rowsFor, List.find?]
  | n :: rest, acc, hreg => by
    have hn : (lookupDict f.engines n).isSome := hreg n (List.mem_cons_self n rest)
    obtain ⟨e, he⟩ := Option.isSome_iff_exists.mp hn
    have hrest : ∀ m ∈ rest, (lookupDict f.engines m).isSome := fun m hm =>
      hreg m (List.mem_cons_of_mem n hm)
    by_cases hm : e.isOperationMode mode = true
    · cases hfil : guaranteeFilter mode e og ck plk ag
      · -- guarantee filter rejects: the loop continues, no row, no match here
        have hpass : passesChecks f mode pk og ck plk ag n = false := by
          simp [passesChecks, he, hfil]
        have hstep : scanPreferences f mode pk og ck plk ag (n :: rest) acc =
            scanPreferences f mode pk og ck plk ag rest acc := by
          simp [scanPreferences, he, hm, modeCheck_of_match mode e og ck plk ag hg, hfil]
        rw [hstep, scanPreferences_spec f mode pk og ck plk ag hg rest acc hrest,
          List.find?_cons_of_neg _ (by simp [hpass])]
        have hrow : rowsFor f mode pk og ck plk ag (n :: rest) =
            rowsFor f mode pk og ck plk ag rest := by
          simp [rowsFor, List.filterMap_cons, he, hfil]
        rw [hrow]
      · cases hsup : e.supports pk
        · -- capability check fails: a diagnostic row is recorded
          have hpass : passesChecks f mode pk og ck plk ag n = false := by
            simp [passesChecks, he, hsup]
          have hstep : scanPreferences f mode pk og ck plk ag (n :: rest) acc =
              scanPreferences f mode pk og ck plk ag rest (acc ++ [featureRow n e pk]) := by
            simp [scanPreferences, he, hm, modeCheck_of_match mode e og ck plk ag hg,
              hfil, hsup]
          rw [hstep,
            scanPreferences_spec f mode pk og ck plk ag hg rest (acc ++ [featureRow n e pk]) hrest,
            List.find?_cons_of_neg _ (by simp [hpass])]
          have hrow : rowsFor f mode pk og ck plk ag (n :: rest) =
              featureRow n e pk :: rowsFor f mode pk og ck plk ag rest := by
            simp [rowsFor, List.filterMap_cons, he, hm, hfil, hsup]
          rw [hrow, List.append_cons, List.append_assoc]
          simp
        · -- all checks pass: the engine is returned
          have hpass : passesChecks f mode pk og ck plk ag n = true := by
            simp [passesChecks, he, hm, hfil, hsup]
          have hstep : scanPreferences f mode pk og ck plk ag (n :: rest) acc = .ok e := by
            simp [scanPreferences, he, hm, modeCheck_of_match mode e og ck plk ag hg,
              hfil, hsup]
          rw [hstep, List.find?_cons_of_pos _ hpass]
          simp [he]
    · -- the engine does not declare the requested mode: skipped silently
      have hpass : passesChecks f mode pk og ck plk ag n = false := by
        simp [passesChecks, he, hm]
      have hstep : scanPreferences f mode pk og ck plk ag (n :: rest) acc =
          scanPreferences f mode pk og ck plk ag rest acc := by
        simp [scanPreferences, he, hm]
      rw [hstep, scanPreferences_spec f mode pk og ck plk ag hg rest acc hrest,
        List.find?_cons_of_neg _ (by simp [hpass])]
      have hrow : rowsFor f mode pk og ck plk ag (n :: rest) =
          rowsFor f mode pk og ck plk ag rest := by
        simp [rowsFor, List.filterMap_cons, he, hm]
      rw [hrow]

lemma scanPreferences_mismatch (f : Factory) (mode : OperationMode) (pk : ProblemKind)
    (og : Option OptimalityGuarantee) (ck : Option CompilationKind)
    (plk : Option PlanKind) (ag : Option AnytimeGuarantee)
    (hmm : guaranteesMatch mode og ck plk ag = false) :
    ∀ (names : List String) (acc : List (List String)),
      (∀ n ∈ names, (lookupDict f.engines n).isSome) →
      (∃ n ∈ names, ∃ e, lookupDict f.engines n = some e ∧
        e.isOperationMode mode = true) →
      scanPreferences f mode pk og ck plk ag names acc = .error .assertionError
  | [], _, _, hdecl => by simp at hdecl
  | n :: rest, acc, hreg, hdecl => by
    obtain ⟨e, he⟩ := Option.isSome_iff_exists.mp (hreg n (List.mem_cons_self n rest))
    by_cases hm : e.isOperationMode mode = true
    · simp [scanPreferences, he, hm, modeCheck_of_mismatch mode e og ck plk ag hmm]
    · have hstep : scanPreferences f mode pk og ck plk ag (n :: rest) acc =
          scanPreferences f mode pk og ck plk ag rest acc := by
        simp [scanPreferences, he, hm]
      rw [hstep]
      refine scanPreferences_mismatch f mode pk og ck plk ag hmm rest acc
        (fun m hm2 => hreg m (List.mem_cons_of_mem n hm2)) ?_
      obtain ⟨m, hmem, e2, he2, hd⟩ := hdecl
      rcases List.mem_cons.mp hmem with rfl | hmem2
      · rw [he] at he2
        cases he2
        exact absurd hd hm
      · exact ⟨m, hmem2, e2, he2, hd⟩

/-! ### Lemmas about registry reconstruction -/

lemma mem_keys_dictInsert {α : Type u} (d : List (String × α)) (k : String) (v : α)
    (x : String) :
    x ∈ (dictInsert d k v).map Prod.fst ↔ x = k ∨ x ∈ d.map Prod.fst := by
  unfold dictInsert
  by_cases h : (d.find? (fun p => p.1 == k)).isSome
  · rw [if_pos h]
    have hkeys : (d.map (fun p => if p.1 == k then (k, v) else p)).map Prod.fst =
        d.map Prod.fst := by
      rw [List.map_map]
      apply List.map_congr_left
      intro p _
      by_cases hp : (p.1 == k) = true
      · simp only [Function.comp_apply, if_pos hp]
        exact (eq_of_beq hp).symm
      · simp only [Function.comp_apply, if_neg hp]
    rw [hkeys]
    obtain ⟨p0, hfind⟩ := Option.isSome_iff_exists.mp h
    have hp0 := List.find?_some hfind
    have hk : k ∈ d.map Prod.fst := by
      rw [List.mem_map]
      refine ⟨p0, List.mem_of_find?_eq_some hfind, ?_⟩
      exact eq_of_beq hp0
    constructor
    · exact fun hx => Or.inr hx
    · rintro (rfl | hx)
      · exact hk
      · exact hx
  · rw [if_neg h]
    simp [or_comm]

lemma foldl_setstateEngineStep (ld : Loader) :
    ∀ (infos : List (String × String × String)) (g : Factory),
      (∀ i ∈ infos, (ld.engine i.2.1 i.2.2).isSome) →
      infos.foldl (setstateEngineStep ld) (Except.ok g) =
        .ok { g with
          engines := infos.foldl (fun d i =>
            match ld.engine i.2.1 i.2.2 with
            | some impl => dictInsert d i.1 impl
            | none => d) g.engines,
          enginesInfo := g.enginesInfo ++ infos }
  | [], g, _ => by simp
  | i :: rest, g, hload => by
    obtain ⟨impl, himpl⟩ :=
      Option.isSome_iff_exists.mp (hload i (List.mem_cons_self i rest))
    have hstep : setstateEngineStep ld (Except.ok g) i =
        .ok { g with
          engines := dictInsert g.engines i.1 impl,
          enginesInfo := g.enginesInfo ++ [(i.1, i.2.1, i.2.2)] } := by
      simp [setstateEngineStep, addEngineAux, himpl]
    rw [List.foldl_cons, hstep,
      foldl_setstateEngineStep ld rest _
        (fun j hj => hload j (List.mem_cons_of_mem i hj))]
    simp [himpl, List.append_assoc]

lemma foldl_setstateMetaStep (ld : Loader) (mi : String × String × String)
    (impl : MetaEngine) :
    ∀ (ds : List (String × Engine)) (g : Factory),
      lookupDict g.metaEngines mi.1 = some impl →
      ds.foldl (setstateMetaStep ld mi) (Except.ok g) =
        .ok { g with
          engines := ds.foldl (fun d p =>
            if impl.isCompatibleEngine p.2 then
              dictInsert d (metaName mi.1 p.1) (impl.compose p.2)
            else d) g.engines }
  | [], g, _ => by simp
  | p :: rest, g, hfound => by
    have hstep : setstateMetaStep ld mi (Except.ok g) p =
        .ok (composeInto g mi.1 impl p.1 p.2) := by
      simp [setstateMetaStep, addMetaEngineAux, hfound]
    rw [List.foldl_cons, hstep]
    by_cases hc : impl.isCompatibleEngine p.2 = true
    · have hci : composeInto g mi.1 impl p.1 p.2 =
          { g with
            engines := dictInsert g.engines (metaName mi.1 p.1) (impl.compose p.2) } := by
        simp [composeInto, hc]
      rw [hci, foldl_setstateMetaStep ld mi impl rest
        { g with
          engines := dictInsert g.engines (metaName mi.1 p.1) (impl.compose p.2) }
        hfound]
      simp [List.foldl_cons, hc]
    · have hci : composeInto g mi.1 impl p.1 p.2 = g := by
        simp [composeInto, hc]
      rw [hci, foldl_setstateMetaStep ld mi impl rest g hfound]
      simp [List.foldl_cons, hc]

lemma foldl_metaReplay (ld : Loader) (snapshot : List (String × Engine)) :
    ∀ (minfos : List (String × String × String)) (g : Factory),
      (∀ mi ∈ minfos, (lookupDict g.metaEngines mi.1).isSome) →
      minfos.foldl (fun acc mi => snapshot.foldl (setstateMetaStep ld mi) acc)
          (Except.ok g) =
        .ok { g with engines := composedEngines g.metaEngines snapshot minfos g.engines }
  | [], g, _ => by simp [composedEngines]
  | mi :: rest, g, hmeta => by
    obtain ⟨impl, himpl⟩ :=
      Option.isSome_iff_exists.mp (hmeta mi (List.mem_cons_self mi rest))
    rw [List.foldl_cons, foldl_setstateMetaStep ld mi impl snapshot g himpl]
    rw [foldl_metaReplay ld snapshot rest
      { g with
        engines := snapshot.foldl (fun d p =>
          if impl.isCompatibleEngine p.2 then
            dictInsert d (metaName mi.1 p.1) (impl.compose p.2)
          else d) g.engines }
      (fun mj hj => hmeta mj (List.mem_cons_of_mem mi hj))]
    simp [composedEngines, List.foldl_cons, himpl]

lemma mem_keys_composeFold (impl : MetaEngine) (mname : String) :
    ∀ (snapshot : List (String × Engine)) (d : List (String × Engine)) (x : String),
      (x ∈ (snapshot.foldl (fun d2 p =>
          if impl.isCompatibleEngine p.2 then
            dictInsert d2 (metaName mname p.1) (impl.compose p.2)
          else d2) d).map Prod.fst) ↔
        x ∈ d.map Prod.fst ∨
          ∃ p ∈ snapshot, impl.isCompatibleEngine p.2 = true ∧ x = metaName mname p.1
  | [], d, x => by simp
  | p :: rest, d, x => by
    rw [List.foldl_cons]
    by_cases hc : impl.isCompatibleEngine p.2 = true
    · rw [if_pos hc, mem_keys_composeFold impl mname rest _ x, mem_keys_dictInsert]
      simp only [List.mem_cons]
      constructor
      · rintro ((rfl | hx) | ⟨q, hq, hqc, rfl⟩)
        · exact Or.inr ⟨p, Or.inl rfl, hc, rfl⟩
        · exact Or.inl hx
        · exact Or.inr ⟨q, Or.inr hq, hqc, rfl⟩
      · rintro (hx | ⟨q, (rfl | hq), hqc, rfl⟩)
        · exact Or.inl (Or.inr hx)
        · exact Or.inl (Or.inl rfl)
        · exact Or.inr ⟨q, hq, hqc, rfl⟩
    · rw [if_neg hc, mem_keys_composeFold impl mname rest d x]
      simp only [List.mem_cons]
      constructor
      · rintro (hx | ⟨q, hq, hqc, rfl⟩)
        · exact Or.inl hx
        · exact Or.inr ⟨q, Or.inr hq, hqc, rfl⟩
      · rintro (hx | ⟨q, (rfl | hq), hqc, rfl⟩)
        · exact Or.inl hx
        · exact absurd hqc hc
        · exact Or.inr ⟨q, hq, hqc, rfl⟩

lemma mem_keys_composedEngines (M : List (String × MetaEngine))
    (snapshot : List (String × Engine)) :
    ∀ (minfos : List (String × String × String)) (d : List (String × Engine))
      (x : String),
      x ∈ (composedEngines M snapshot minfos d).map Prod.fst ↔
        x ∈ d.map Prod.fst ∨
          ∃ mi ∈ minfos, ∃ impl, lookupDict M mi.1 = some impl ∧
            ∃ p ∈ snapshot, impl.isCompatibleEngine p.2 = true ∧
              x = metaName mi.1 p.1
  | [], d, x => by simp [composedEngines]
  | mi :: rest, d, x => by
    have hcons : composedEngines M snapshot (mi :: rest) d =
        composedEngines M snapshot rest
          (match lookupDict M mi.1 with
           | some impl => snapshot.foldl (fun d2 p =>
               if impl.isCompatibleEngine p.2 then
                 dictInsert d2 (metaName mi.1 p.1) (impl.compose p.2)
               else d2) d
           | none => d) := by
      simp [composedEngines]
    rw [hcons]
    cases himpl : lookupDict M mi.1 with
    | none =>
      rw [mem_keys_composedEngines M snapshot rest d x]
      simp only [List.mem_cons]
      constructor
      · rintro (hx | ⟨mj, hmj, impl2, hlook, hrest⟩)
        · exact Or.inl hx
        · exact Or.inr ⟨mj, Or.inr hmj, impl2, hlook, hrest⟩
      · rintro (hx | ⟨mj, (rfl | hmj), impl2, hlook, hrest⟩)
        · exact Or.inl hx
        · rw [himpl] at hlook
          exact Option.noConfusion hlook
        · exact Or.inr ⟨mj, hmj, impl2, hlook, hrest⟩
    | some impl =>
      rw [mem_keys_composedEngines M snapshot rest _ x,
        mem_keys_composeFold impl mi.1 snapshot d x]
      simp only [List.mem_cons]
      constructor
      · rintro ((hx | ⟨p, hp, hpc, rfl⟩) | ⟨mj, hmj, impl2, hlook, hrest⟩)
        · exact Or.inl hx
        · exact Or.inr ⟨mi, Or.inl rfl, impl, himpl, p, hp, hpc, rfl⟩
        · exact Or.inr ⟨mj, Or.inr hmj, impl2, hlook, hrest⟩
      · rintro (hx | ⟨mj, (rfl | hmj), impl2, hlook, hrest⟩)
        · exact Or.inl (Or.inl hx)
        · rw [himpl] at hlook
          injection hlook with hlook
          subst hlook
          obtain ⟨p, hp, hpc, rfl⟩ := hrest
          exact Or.inl (Or.inr ⟨p, hp, hpc, rfl⟩)
        · exact Or.inr ⟨mj, hmj, impl2, hlook, hrest⟩

/-! ### Claim theorems -/

/-- C1: for a capability-based resolution (no explicit name) with at most the
guarantee dimension matching the requested mode non-null, and every
preference-list name registered, `_get_engine_class` succeeds with engine `E`
exactly when the first preference-list name passing all checks (declares the
mode, guarantee predicate accepts the guarantee when given, capabilities
support the problem kind) resolves to `E`.  In particular an engine failing
any check — capability support included — is never the one returned, and of
two qualifying backends the earlier one in the list wins. -/
theorem c1_capability_resolution_first_match (f : Factory) (mode : OperationMode)
    (pk : ProblemKind) (og : Option OptimalityGuarantee) (ck : Option CompilationKind)
    (plk : Option PlanKind) (ag : Option AnytimeGuarantee) (E : Engine)
    (hreg : ∀ n ∈ f.preferenceList, (lookupDict f.engines n).isSome)
    (hg : guaranteesMatch mode og ck plk ag = true) :
    getEngineClass f mode none pk og ck plk ag = .ok E ↔
      ∃ n, f.preferenceList.find? (passesChecks f mode pk og ck plk ag) = some n ∧
        lookupDict f.engines n = some E := by
  have heq : getEngineClass f mode none pk og ck plk ag =
      scanPreferences f mode pk og ck plk ag f.preferenceList [] := by
    simp [getEngineClass, guaranteesMatch_eager mode og ck plk ag hg]
  rw [heq, scanPreferences_spec f mode pk og ck plk ag hg f.preferenceList [] hreg]
  cases hfind : f.preferenceList.find? (passesChecks f mode pk og ck plk ag) with
  | none => simp
  | some n =>
    have hp : passesChecks f mode pk og ck plk ag n = true := List.find?_some hfind
    have hn : (lookupDict f.engines n).isSome := by
      cases h : lookupDict f.engines n <;> simp [passesChecks, h] at hp ⊢
    obtain ⟨e, he⟩ := Option.isSome_iff_exists.mp hn
    simp [he]

/-- C1 witness: in the two-planner factory with preference order `a`, `b` and
request features `{f1, f2}`, the resolution returns `b` (`a` fails the
capability check). -/
theorem c1_capability_resolution_first_match_witness :
    getEngineClass factoryAB .oneshot_planner none ⟨["f1", "f2"]⟩ none none none none =
        .ok engB ↔
      ∃ n, factoryAB.preferenceList.find?
          (passesChecks factoryAB .oneshot_planner ⟨["f1", "f2"]⟩ none none none none) =
          some n ∧
        lookupDict factoryAB.engines n = some engB :=
  c1_capability_resolution_first_match factoryAB .oneshot_planner ⟨["f1", "f2"]⟩
    none none none none engB (by decide) (by decide)

/-- C2: explicit-name resolution consults the registry directly — a registered
name returns its engine class with no mode/guarantee/capability check applied
(the guarantees and the problem kind are universally quantified here and do
not influence the result), and an absent name raises
`UPNoRequestedEngineAvailableException`. -/
theorem c2_explicit_name_resolution (f : Factory) (mode : OperationMode) (n : String)
    (pk : ProblemKind) (og : Option OptimalityGuarantee) (ck : Option CompilationKind)
    (plk : Option PlanKind) (ag : Option AnytimeGuarantee) :
    (∀ E, lookupDict f.engines n = some E →
      getEngineClass f mode (some n) pk og ck plk ag = .ok E) ∧
    (lookupDict f.engines n = none →
      getEngineClass f mode (some n) pk og ck plk ag = .error .noRequestedEngine) := by
  constructor
  · intro E hE
    simp [getEngineClass, hE]
  · intro hE
    simp [getEngineClass, hE]

/-- C2 witness: engine `a` neither satisfies `SOLVED_OPTIMALLY` nor supports
`{f1, f2, f3}`, yet requesting it by name succeeds; an unknown name fails with
the NotFound exception. -/
theorem c2_explicit_name_resolution_witness :
    getEngineClass factoryAB .oneshot_planner (some "a") ⟨["f1", "f2", "f3"]⟩
        (some .SOLVED_OPTIMALLY) none none none = .ok engA ∧
    getEngineClass factoryAB .oneshot_planner (some "zz") ⟨[]⟩ none none none none =
      .error .noRequestedEngine :=
  ⟨(c2_explicit_name_resolution factoryAB .oneshot_planner "a" ⟨["f1", "f2", "f3"]⟩
      (some .SOLVED_OPTIMALLY) none none none).1 engA (by decide),
   (c2_explicit_name_resolution factoryAB .oneshot_planner "zz" ⟨[]⟩
      none none none none).2 (by decide)⟩

/-- C4 counterexample: engine `a` declares the oneshot-planner kind (and even
supports the requested feature), but because it fails the optimality-guarantee
filter the failure diagnostic contains no row for it at all — the error
degrades to the guarantee message, not a table with one row per candidate
declaring the kind as the claim requires. -/
theorem c4_counterexample :
    engNoGuarantee.isOperationMode .oneshot_planner = true ∧
    engNoGuarantee.supports ⟨["f1"]⟩ = true ∧
    getEngineClass factoryNoGuarantee .oneshot_planner none ⟨["f1"]⟩
        (some .SATISFICING) none none none =
      .error (.noSuitable (.noOptimality .SATISFICING)) := by decide

/-- C4 (amended): when no preference-list name passes all checks, the call
fails with `UPNoSuitableEngineAvailableException` whose diagnostic contains
one row exactly for every candidate that declared the requested kind AND
passed the guarantee filter (each row holding, per requested feature flag,
whether that backend supports the flag in isolation); when there is no such
row the diagnostic degrades to the compilation/plan/optimality/anytime-
guarantee message or, with no guarantee requested, to the
"no engine available for this mode" message. -/
theorem c4_no_suitable_diagnostic (f : Factory) (mode : OperationMode)
    (pk : ProblemKind) (og : Option OptimalityGuarantee) (ck : Option CompilationKind)
    (plk : Option PlanKind) (ag : Option AnytimeGuarantee)
    (hreg : ∀ n ∈ f.preferenceList, (lookupDict f.engines n).isSome)
    (hg : guaranteesMatch mode og ck plk ag = true)
    (hnone : f.preferenceList.find? (passesChecks f mode pk og ck plk ag) = none) :
    getEngineClass f mode none pk og ck plk ag =
      .error (.noSuitable (noSuitableMsg mode pk og ck plk ag
        (rowsFor f mode pk og ck plk ag f.preferenceList))) := by
  have heq : getEngineClass f mode none pk og ck plk ag =
      scanPreferences f mode pk og ck plk ag f.preferenceList [] := by
    simp [getEngineClass, guaranteesMatch_eager mode og ck plk ag hg]
  rw [heq, scanPreferences_spec f mode pk og ck plk ag hg f.preferenceList [] hreg,
    hnone]
  simp

/-- C4 (amended) witness: requesting `{f3}` from the two-planner factory with
no guarantee produces the diagnostic table with one row per candidate. -/
theorem c4_no_suitable_diagnostic_witness :
    getEngineClass factoryAB .oneshot_planner none ⟨["f3"]⟩ none none none none =
      .error (.noSuitable (noSuitableMsg .oneshot_planner ⟨["f3"]⟩ none none none none
        (rowsFor factoryAB .oneshot_planner ⟨["f3"]⟩ none none none none
          factoryAB.preferenceList))) :=
  c4_no_suitable_diagnostic factoryAB .oneshot_planner ⟨["f3"]⟩ none none none none
    (by decide) (by decide) (by decide)

/-- C5 counterexample: the `preference_list` setter accepts a name absent from
the registry, and a capability-based resolution on the resulting state is NOT
tolerant of it: it raises a `KeyError` instead of skipping the stale name. -/
theorem c5_counterexample :
    factoryStale.preferenceList = ["ghost"] ∧
    lookupDict factoryStale.engines "ghost" = none ∧
    getEngineClass factoryStale .oneshot_planner none ⟨[]⟩ none none none none =
      .error (.keyError "ghost") := by decide

/-- C5 (amended): a stale name in the PreferenceList is not skipped — as soon
as the scan reaches it (here: at the head of the list) the resolution fails
with a `KeyError` carrying that name, for every request whose guarantees match
the requested mode.  The registry-coverage invariant is a caller obligation of
the `preference_list` setter, not something the resolver enforces or
tolerates. -/
theorem c5_stale_preference_name_errors (f : Factory) (mode : OperationMode)
    (pk : ProblemKind) (og : Option OptimalityGuarantee) (ck : Option CompilationKind)
    (plk : Option PlanKind) (ag : Option AnytimeGuarantee) (n : String)
    (rest : List String)
    (hpref : f.preferenceList = n :: rest)
    (hstale : lookupDict f.engines n = none)
    (hg : guaranteesMatch mode og ck plk ag = true) :
    getEngineClass f mode none pk og ck plk ag = .error (.keyError n) := by
  simp [getEngineClass, guaranteesMatch_eager mode og ck plk ag hg, hpref,
    scanPreferences, hstale]

/-- C5 (amended) witness: the stale-name factory errors with the key. -/
theorem c5_stale_preference_name_errors_witness :
    getEngineClass factoryStale .oneshot_planner none ⟨[]⟩ none none none none =
      .error (.keyError "ghost") :=
  c5_stale_preference_name_errors factoryStale .oneshot_planner ⟨[]⟩
    none none none none "ghost" [] (by decide) (by decide) (by decide)

/-- C6 counterexample: a request carrying an anytime guarantee together with
the oneshot-planner mode, on a factory with an empty preference list, does NOT
fail with the assertion (caller-contract) error: it ends in
`UPNoSuitableEngineAvailableException`, so the contract check is not eager and
does depend on what the PreferenceList contains. -/
theorem c6_counterexample :
    emptyFactory.preferenceList = [] ∧
    getEngineClass emptyFactory .oneshot_planner none ⟨[]⟩ none none none
        (some .INCREASING_QUALITY) =
      .error (.noSuitable (.noAnytime .INCREASING_QUALITY)) := by decide

/-- C6 (amended): a request whose guarantee dimensions do not match the
requested mode fails with the caller-contract `AssertionError` whenever the
preference list (all names registered) contains at least one engine declaring
the requested mode — the assertion fires at the first such engine during the
scan (and the optimality/compilation pair is additionally checked eagerly
before the scan); with no such engine the call instead degrades to
`UPNoSuitableEngineAvailableException`. -/
theorem c6_mismatched_guarantee_assert (f : Factory) (mode : OperationMode)
    (pk : ProblemKind) (og : Option OptimalityGuarantee) (ck : Option CompilationKind)
    (plk : Option PlanKind) (ag : Option AnytimeGuarantee)
    (hreg : ∀ n ∈ f.preferenceList, (lookupDict f.engines n).isSome)
    (hmm : guaranteesMatch mode og ck plk ag = false)
    (hdecl : ∃ n ∈ f.preferenceList, ∃ e, lookupDict f.engines n = some e ∧
      e.isOperationMode mode = true) :
    getEngineClass f mode none pk og ck plk ag = .error .assertionError := by
  by_cases h : (og.isSome && ck.isSome) = true
  · simp [getEngineClass, h]
  · have h2 : (og.isSome && ck.isSome) = false := by
      revert h
      cases (og.isSome && ck.isSome) <;> simp
    have heq : getEngineClass f mode none pk og ck plk ag =
        scanPreferences f mode pk og ck plk ag f.preferenceList [] := by
      simp [getEngineClass, h2]
    rw [heq]
    exact scanPreferences_mismatch f mode pk og ck plk ag hmm
      f.preferenceList [] hreg hdecl

/-- C6 (amended) witness: an anytime guarantee passed to a oneshot-planner
request does raise the assertion error once a oneshot-declaring engine is in
the preference list. -/
theorem c6_mismatched_guarantee_assert_witness :
    getEngineClass factoryAB .oneshot_planner none ⟨[]⟩ none none none
        (some .OPTIMAL_PLANS) = .error .assertionError :=
  c6_mismatched_guarantee_assert factoryAB .oneshot_planner ⟨[]⟩ none none none
    (some .OPTIMAL_PLANS) (by decide) (by decide)
    ⟨"a", by decide, engA, by decide, by decide⟩

/-- C10: the direct lookup `Factory.engine(name)` fails on every name absent
from the registry (with the dict `KeyError`, the concrete realization of the
spec's NotFound for this operation) and returns the registered engine class on
every present name. -/
theorem c10_engine_lookup (f : Factory) (n : String) :
    (lookupDict f.engines n = none → engineLookup f n = .error (.keyError n)) ∧
    (∀ E, lookupDict f.engines n = some E → engineLookup f n = .ok E) := by
  constructor
  · intro h
    simp [engineLookup, h]
  · intro E h
    simp [engineLookup, h]

/-- C10 witness: lookup of an absent and of a present name. -/
theorem c10_engine_lookup_witness :
    engineLookup factoryAB "zz" = .error (.keyError "zz") ∧
    engineLookup factoryAB "a" = .ok engA :=
  ⟨(c10_engine_lookup factoryAB "zz").1 (by decide),
   (c10_engine_lookup factoryAB "a").2 engA (by decide)⟩

/-- C7: when the module/class reference cannot be loaded, `add_engine`
propagates the load error to the caller and leaves the whole factory state —
engines map, recorded instruction list and PreferenceList — exactly as it was
(the error carries the unmodified state `f`). -/
theorem c7_add_engine_failed_load (ld : Loader) (f : Factory)
    (name moduleName className : String)
    (h : ld.engine moduleName className = none) :
    addEngine ld f name moduleName className =
      .error (.importError moduleName className, f) := by
  simp [addEngine, addEngineAux, h]

/-- C7 witness: a failing load on the two-planner factory errors and leaves it
untouched. -/
theorem c7_add_engine_failed_load_witness :
    addEngine failLoader factoryAB "x" "mx" "cx" =
      .error (.importError "mx" "cx", factoryAB) :=
  c7_add_engine_failed_load failLoader factoryAB "x" "mx" "cx" rfl

/-- C8: once the replanner class is resolved, `_get_engine` raises
`UPUsageError` — with a message claiming the problem has NO quality metrics —
exactly when the problem's kind HAS quality metrics and the guarantee is
`SOLVED_OPTIMALLY`; in every other combination (including `SOLVED_OPTIMALLY`
on a problem without quality metrics) this check does not reject and the
resolved engine is produced. -/
theorem c8_replanner_optimality_guard (f : Factory) (name : Option String)
    (pk : ProblemKind) (hqm : Bool) (og : Option OptimalityGuarantee) (E : Engine)
    (h : getEngineClass f .replanner name pk og none none none = .ok E) :
    (getEngineReplanner f name pk hqm og =
        .error (.usageError replannerOptimalityMsg) ↔
      hqm = true ∧ og = some .SOLVED_OPTIMALLY) ∧
    (hqm = false ∨ og ≠ some .SOLVED_OPTIMALLY →
      getEngineReplanner f name pk hqm og = .ok E) := by
  unfold getEngineReplanner
  rw [h]
  rcases og with _ | g
  · cases hqm <;> simp
  · cases g <;> cases hqm <;> simp

/-- C8 witness: a `SOLVED_OPTIMALLY` replanner request on a problem WITH
quality metrics is rejected with the (contradictory) usage error, instantiated
on the one-replanner factory. -/
theorem c8_replanner_optimality_guard_witness :
    (getEngineReplanner factoryR none ⟨[]⟩ true (some .SOLVED_OPTIMALLY) =
        .error (.usageError replannerOptimalityMsg) ↔
      true = true ∧ (some OptimalityGuarantee.SOLVED_OPTIMALLY : Option OptimalityGuarantee) =
        some .SOLVED_OPTIMALLY) ∧
    (true = false ∨ (some OptimalityGuarantee.SOLVED_OPTIMALLY : Option OptimalityGuarantee) ≠
        some .SOLVED_OPTIMALLY →
      getEngineReplanner factoryR none ⟨[]⟩ true (some .SOLVED_OPTIMALLY) = .ok engR) :=
  c8_replanner_optimality_guard factoryR none ⟨[]⟩ true (some .SOLVED_OPTIMALLY) engR
    (by decide)

/-- C9: when `configure_from_file` succeeds on a configuration whose `[global]`
section carries `engine_preference_list`, the resulting PreferenceList is
exactly the whitespace-separated tokens of that value that name a registered
engine, in listed order — a replacement of the previous list, with
unregistered names silently dropped. -/
theorem c9_global_preference_replacement (ld : Loader) (f : Factory) (cfg : Config)
    (g : Factory) (s : String)
    (hok : configureFromFile ld f cfg = .ok g)
    (hs : cfg.globalSection = some ⟨some s⟩) :
    g.preferenceList = (splitWhitespaceTokens s).filter
      (fun e => (lookupDict g.engines e).isSome) := by
  unfold configureFromFile at hok
  split at hok
  · exact Except.noConfusion hok
  · split at hok
    · exact Except.noConfusion hok
    · rw [hs] at hok
      simp only [] at hok
      injection hok with hok
      subst hok
      rfl

/-- C9 witness: configuring the empty factory with one engine section and the
global list `"ghost a"` gives the PreferenceList `["a"]` — `ghost` dropped. -/
theorem c9_global_preference_replacement_witness :
    factoryConfigured.preferenceList = (splitWhitespaceTokens "ghost a").filter
      (fun e => (lookupDict factoryConfigured.engines e).isSome) :=
  c9_global_preference_replacement ldConfig emptyFactory cfgGlobal factoryConfigured
    "ghost a" rfl rfl

/-- C3 counterexample: a factory reached by `add_engine("base")`,
`add_meta_engine("m1")`, `add_meta_engine("m2")` (everything loadable, both
meta-engines compatible with every engine) registers the nested composition
`m2[m1[base]]`, but replaying the recorded instruction lists through
`__setstate__` with the very same loader yields a registry WITHOUT that name:
the reconstructed engine-name set differs from the original. -/
theorem c3_counterexample :
    factoryNested.engines.map Prod.fst =
      ["base", "m1[base]", "m2[base]", "m2[m1[base]]"] ∧
    (reconstruct ldNested factoryNested).toOption.map
        (fun g => g.engines.map Prod.fst) =
      some ["base", "m1[base]", "m2[base]"] := by decide

/-- C3 (amended): reconstruction (when every recorded engine reference loads
and every recorded meta-engine name is present in the pickled `_meta_engines`
dict) always succeeds, preserves the PreferenceList verbatim, and produces a
registry holding exactly the replayed plain engines plus each recorded
meta-engine's compositions against those plain engines — so the name set
matches the original exactly when the original contains no composition whose
base is itself a composed engine; nested compositions are dropped. -/
theorem c3_reconstruction_characterization (ld : Loader) (f : Factory)
    (hload : ∀ i ∈ f.enginesInfo, (ld.engine i.2.1 i.2.2).isSome)
    (hmeta : ∀ mi ∈ f.metaEnginesInfo, (lookupDict f.metaEngines mi.1).isSome) :
    ∃ g, reconstruct ld f = .ok g ∧
      g.preferenceList = f.preferenceList ∧
      ∀ x, x ∈ g.engines.map Prod.fst ↔
        (x ∈ (replayEngines ld f.enginesInfo).map Prod.fst ∨
         ∃ mi ∈ f.metaEnginesInfo, ∃ impl,
           lookupDict f.metaEngines mi.1 = some impl ∧
           ∃ p ∈ replayEngines ld f.enginesInfo,
             impl.isCompatibleEngine p.2 = true ∧ x = metaName mi.1 p.1) := by
  have h1 : f.enginesInfo.foldl (setstateEngineStep ld)
      (Except.ok { f with engines := [], enginesInfo := [] }) =
      .ok { f with engines := replayEngines ld f.enginesInfo } := by
    rw [foldl_setstateEngineStep ld f.enginesInfo
      { f with engines := [], enginesInfo := [] } hload]
    rfl
  have hrec : reconstruct ld f =
      .ok { f with
        engines := composedEngines f.metaEngines (replayEngines ld f.enginesInfo)
          f.metaEnginesInfo (replayEngines ld f.enginesInfo),
        metaEnginesInfo := [] } := by
    unfold reconstruct
    rw [h1]
    show f.metaEnginesInfo.foldl
        (fun acc mi =>
          (replayEngines ld f.enginesInfo).foldl (setstateMetaStep ld mi) acc)
        (Except.ok { f with
          engines := replayEngines ld f.enginesInfo,
          metaEnginesInfo := [] }) = _
    rw [foldl_metaReplay ld (replayEngines ld f.enginesInfo) f.metaEnginesInfo
      { f with
        engines := replayEngines ld f.enginesInfo,
        metaEnginesInfo := [] }
      hmeta]
  refine ⟨_, hrec, rfl, fun x => ?_⟩
  exact mem_keys_composedEngines f.metaEngines (replayEngines ld f.enginesInfo)
    f.metaEnginesInfo (replayEngines ld f.enginesInfo) x

/-- C3 (amended) witness: the characterization instantiated on the nested
composition scenario. -/
theorem c3_reconstruction_characterization_witness :
    ∃ g, reconstruct ldNested factoryNested = .ok g ∧
      g.preferenceList = factoryNested.preferenceList ∧
      ∀ x, x ∈ g.engines.map Prod.fst ↔
        (x ∈ (replayEngines ldNested factoryNested.enginesInfo).map Prod.fst ∨
         ∃ mi ∈ factoryNested.metaEnginesInfo, ∃ impl,
           lookupDict factoryNested.metaEngines mi.1 = some impl ∧
           ∃ p ∈ replayEngines ldNested factoryNested.enginesInfo,
             impl.isCompatibleEngine p.2 = true ∧ x = metaName mi.1 p.1) :=
  c3_reconstruction_characterization ldNested factoryNested (by decide) (by decide)

end UPFactory
